import Mathlib

/-!
Verification development for the eit-cache repository (Go).

The Go code is shallowly embedded:
* Go strings (keys, patterns, serialized payloads) are modeled as `List Char`
  (`Str`), since Go strings are immutable byte sequences and all operations the
  code performs on them (equality, prefix test, trimming a one-character
  suffix, concatenation) are pointwise on the underlying sequence.
* A Go `map[string]*memoryEntry` is modeled as an association list with the
  usual get/assign/delete operations; Go map iteration order is arbitrary, so
  order-sensitive facts are never used.
* `time.Time`/`time.Duration` are modeled as `Int` nanoseconds; the zero
  `time.Time` (Go's `IsZero`) is modeled by `Option Int` being `none`.
* `int`/`int64` are modeled as `Int`, with two's-complement wrap-around made
  explicit (`wrap64`) where the code performs 64-bit arithmetic.
* `json.Marshal`/`json.Unmarshal` at a given Go type are modeled as explicit
  encode/decode function parameters (`Str`-valued encoding, `Option`-valued
  decoding, `none` = deserialization error), since the claims under study
  depend only on the data flow of the (de)serialization, not on the JSON
  grammar.
* Fallible Go calls return `Option GoErr` / `Except GoErr` values.
-/

set_option linter.unreachableTactic false
set_option linter.unusedTactic false
set_option linter.unnecessarySeqFocus false

namespace EitCache

/-- Go strings as character lists. -/
abbrev Str := List Char

/-- Error values used by the embedded code paths (`errors.New` values). -/
inductive GoErr where
  | errManagerNil
  | errInvalidTicket
  | errTicketExpired
  | adapterErr (msg : Str)
  | producerErr (msg : Str)
deriving DecidableEq, Repr

/-- A `memoryEntry` from adapter.go: serialized payload plus absolute expiry
instant; `none` models the zero `time.Time` ("no expiry"). -/
structure MemEntry where
  data : Str
  expireAt : Option Int
deriving DecidableEq, Repr

/-- The `MemoryCacheAdapter`'s map `cache map[string]*memoryEntry`. -/
abbrev MemCache := List (Str × MemEntry)

/-- Go map read `m.cache[key]`. -/
def mapGet : MemCache → Str → Option MemEntry
  | [], _ => none
  | (k', e) :: rest, k => if k' = k then some e else mapGet rest k

/-- Go map assignment `m.cache[key] = entry` (replace or add the binding). -/
def mapSet : MemCache → Str → MemEntry → MemCache
  | [], k, e => [(k, e)]
  | (k', e') :: rest, k, e =>
    if k' = k then (k, e) :: rest else (k', e') :: mapSet rest k e

/-- Go map deletion `delete(m.cache, key)`. -/
def mapDel (c : MemCache) (k : Str) : MemCache :=
  c.filter (fun kv => !(kv.1 = k : Bool))

/-- The expiry test `!entry.expireAt.IsZero() && time.Now().After(entry.expireAt)`
from adapter.go (`After` is strict). -/
def expiredAt (e : MemEntry) (now : Int) : Bool :=
  match e.expireAt with
  | none => false
  | some t => now > t

namespace MemoryCacheAdapter

/-- `MemoryCacheAdapter.Set` (adapter.go): the caller's value arrives already
serialized as `payload` (its `json.Marshal` image). `ttl == 0` is replaced by
the adapter's default TTL; only a strictly positive ttl yields an expiry. -/
def Set (defaultTTL : Int) (c : MemCache) (key : Str) (payload : Str)
    (ttl now : Int) : MemCache :=
  let ttl' := if ttl = 0 then defaultTTL else ttl
  let expireAt : Option Int := if ttl' > 0 then some (now + ttl') else none
  mapSet c key ⟨payload, expireAt⟩

/-- `MemoryCacheAdapter.Get` (adapter.go): read the entry under the read lock;
absent entries and expired entries report not-found (`nil, nil` in Go, here
`none`); an expired entry is deleted under the write lock. Returns the
response together with the post-call cache state. -/
def Get (c : MemCache) (key : Str) (now : Int) : Option Str × MemCache :=
  match mapGet c key with
  | none => (none, c)
  | some e =>
    if expiredAt e now then (none, mapDel c key)
    else (some e.data, c)

/-- `MemoryCacheAdapter.Get` with the lock-release window made explicit: the
read lock is released after the lookup, so another caller may mutate the map
(`interf`) before this call re-acquires the write lock; the source then
deletes the key without re-checking the entry. -/
def GetRace (c : MemCache) (key : Str) (now : Int)
    (interf : MemCache → MemCache) : Option Str × MemCache :=
  match mapGet c key with
  | none => (none, c)
  | some e =>
    if expiredAt e now then (none, mapDel (interf c) key)
    else (some e.data, c)

/-- `strings.TrimSuffix(pattern, "*")`: remove one trailing `'*'` if present. -/
def trimSuffixStar (p : Str) : Str :=
  if ['*'].isSuffixOf p then p.dropLast else p

/-- `MemoryCacheAdapter.DeletePattern` (adapter.go): an empty pattern is a
no-op returning 0; otherwise strip a trailing `'*'` and, under the write lock,
delete every key having the resulting literal prefix, counting deletions. -/
def DeletePattern (c : MemCache) (pat : Str) : Int × MemCache :=
  if pat = [] then (0, c)
  else
    let pre := trimSuffixStar pat
    ((c.filter (fun kv => pre.isPrefixOf kv.1)).length,
     c.filter (fun kv => !(pre.isPrefixOf kv.1)))

/-- Two's-complement wrap-around of Go `int64` arithmetic. -/
def wrap64 (x : Int) : Int := (x + 2 ^ 63) % 2 ^ 64 - 2 ^ 63

/-- `MemoryCacheAdapter.addDelta` (adapter.go): under the write lock, drop the
entry if expired; decode the stored payload as an `int64` (a missing entry, or
a payload `json.Unmarshal` rejects, leaves the counter at 0); add the delta;
store the re-encoded counter, keeping the pre-existing entry's expiry, or no
expiry for a newly created entry. Returns the counter and the new state.
`encInt`/`decInt` are the `json.Marshal`/`json.Unmarshal` of `int64`. -/
def addDelta (encInt : Int → Str) (decInt : Str → Option Int)
    (c : MemCache) (key : Str) (delta now : Int) : Int × MemCache :=
  match mapGet c key with
  | some e =>
    if expiredAt e now then
      let current := wrap64 (0 + delta)
      (current, mapSet (mapDel c key) key ⟨encInt current, none⟩)
    else
      let current := wrap64 ((decInt e.data).getD 0 + delta)
      (current, mapSet c key ⟨encInt current, e.expireAt⟩)
  | none =>
    let current := wrap64 (0 + delta)
    (current, mapSet c key ⟨encInt current, none⟩)

/-- `MemoryCacheAdapter.Incr`. -/
def Incr (encInt : Int → Str) (decInt : Str → Option Int)
    (c : MemCache) (key : Str) (now : Int) : Int × MemCache :=
  addDelta encInt decInt c key 1 now

/-- `MemoryCacheAdapter.Decr`. -/
def Decr (encInt : Int → Str) (decInt : Str → Option Int)
    (c : MemCache) (key : Str) (now : Int) : Int × MemCache :=
  addDelta encInt decInt c key (-1) now

end MemoryCacheAdapter

/-- `InvalidateCacheOnUpdate` (pagination.go): prefix-delete with the pattern
`resource + ":"`, via the manager's `DeletePattern` passthrough. -/
def InvalidateCacheOnUpdate (c : MemCache) (resource : Str) : Int × MemCache :=
  MemoryCacheAdapter.DeletePattern c (resource ++ [':'])

theorem mapGet_mapSet_self (c : MemCache) (k : Str) (e : MemEntry) :
    mapGet (mapSet c k e) k = some e := by
  induction c with
  | nil => simp [mapGet, mapSet]
  | cons kv rest ih =>
    obtain ⟨k', e'⟩ := kv
    by_cases h : k' = k <;> simp [mapGet, mapSet, h, ih]

theorem mapGet_mapDel_self (c : MemCache) (k : Str) :
    mapGet (mapDel c k) k = none := by
  induction c with
  | nil => simp [mapGet, mapDel]
  | cons kv rest ih =>
    obtain ⟨k', e'⟩ := kv
    by_cases h : k' = k <;> simp [mapGet, mapDel, h] at ih ⊢ <;> simpa [mapDel] using ih

/-- C3 (counterexample): the claim quantifies over every in-process backend,
but a backend whose configured default TTL is 0 (as built by
`NewMemoryCacheAdapter(0)`, e.g. from a zero `CacheConfig.DefaultTTL`) stores
a non-expiring entry on `Set(k, v, 0)`: at time 100, strictly after the set
instant 0 plus the default TTL 0, `Get` still returns the payload, not
absent. -/
theorem set_zero_ttl_default_zero_never_expires :
    ¬ ((MemoryCacheAdapter.Get
          (MemoryCacheAdapter.Set 0 [] ['k'] ['v'] 0 0) ['k'] 100).1 = none) ∧
    (MemoryCacheAdapter.Get
        (MemoryCacheAdapter.Set 0 [] ['k'] ['v'] 0 0) ['k'] 100).1 = some ['v'] := by
  constructor <;> decide

/-- C3 (amended): provided the backend's configured default TTL is strictly
positive, `Set` with `ttl == 0` applies the default TTL and never produces a
non-expiring entry: `Get(k)` reports the key absent at any time strictly after
the set instant plus the default TTL. -/
theorem set_zero_ttl_applies_default_ttl (defaultTTL : Int) (c : MemCache)
    (key payload : Str) (now t : Int) (hpos : 0 < defaultTTL)
    (ht : now + defaultTTL < t) :
    (MemoryCacheAdapter.Get
        (MemoryCacheAdapter.Set defaultTTL c key payload 0 now) key t).1 = none := by
  simp [MemoryCacheAdapter.Set, MemoryCacheAdapter.Get, mapGet_mapSet_self,
    expiredAt, hpos, ht]

/-- C3 (witness for the amended theorem). -/
theorem set_zero_ttl_applies_default_ttl_app :
    (0 : Int) < 5 ∧ (0 : Int) + 5 < 6 ∧
    (MemoryCacheAdapter.Get
        (MemoryCacheAdapter.Set 5 [] ['k'] ['v'] 0 0) ['k'] 6).1 = none :=
  ⟨by decide, by decide,
    set_zero_ttl_applies_default_ttl 5 [] ['k'] ['v'] 0 6 (by decide) (by decide)⟩

/-- C10: `Set` on the in-process backend with a strictly negative ttl creates
an entry with no expiry: `Get(k)` at every later (indeed, every) time returns
the stored payload, and leaves the entry in place, until it is overwritten or
deleted. -/
theorem set_negative_ttl_never_expires (defaultTTL : Int) (c : MemCache)
    (key payload : Str) (ttl now t : Int) (hneg : ttl < 0) :
    (MemoryCacheAdapter.Get
        (MemoryCacheAdapter.Set defaultTTL c key payload ttl now) key t).1
        = some payload ∧
    (MemoryCacheAdapter.Get
        (MemoryCacheAdapter.Set defaultTTL c key payload ttl now) key t).2
        = MemoryCacheAdapter.Set defaultTTL c key payload ttl now := by
  have hne : ¬ (ttl = 0) := by omega
  have hnp : ¬ (ttl > 0) := by omega
  simp [MemoryCacheAdapter.Set, MemoryCacheAdapter.Get, mapGet_mapSet_self,
    expiredAt, hne, hnp]

/-- C10 (witness). -/
theorem set_negative_ttl_never_expires_app :
    (-1 : Int) < 0 ∧
    (MemoryCacheAdapter.Get
        (MemoryCacheAdapter.Set 5 [] ['k'] ['v'] (-1) 0) ['k'] 1000000).1
        = some ['v'] :=
  ⟨by decide,
    (set_negative_ttl_never_expires 5 [] ['k'] ['v'] (-1) 0 1000000 (by decide)).1⟩

/-- C5 (counterexample): the source deletes the expired entry after
re-acquiring the write lock WITHOUT re-checking it, so an entry refreshed by
another caller between the read-unlock and the write-lock acquisition IS
deleted by this `Get`. Concretely: the entry for "k" expired at 5, now = 10;
the interfering caller stores a fresh entry expiring at 100; after `Get`, the
key is absent although the claim requires the refreshed entry to survive. -/
theorem get_expired_no_recheck_deletes_refreshed :
    ¬ (mapGet (MemoryCacheAdapter.GetRace
          [(['k'], ⟨['o'], some 5⟩)] ['k'] 10
          (fun c => mapSet c ['k'] ⟨['n'], some 100⟩)).2 ['k']
        = some ⟨['n'], some 100⟩) ∧
    mapGet (MemoryCacheAdapter.GetRace
        [(['k'], ⟨['o'], some 5⟩)] ['k'] 10
        (fun c => mapSet c ['k'] ⟨['n'], some 100⟩)).2 ['k'] = none := by
  constructor <;> decide

/-- C5 (amended): in the in-process backend's `Get`, when the entry found
under the read lock has an expiry strictly in the past, the read lock is
released and the write lock acquired, but the entry is deleted WITHOUT being
re-checked: whatever another caller did to the key in between — including
refreshing it — the key is absent after this `Get`, and the call returns
not-found. -/
theorem get_expired_deletes_unconditionally (c : MemCache) (key : Str)
    (now : Int) (interf : MemCache → MemCache) (e : MemEntry)
    (hfound : mapGet c key = some e) (hexp : expiredAt e now = true) :
    (MemoryCacheAdapter.GetRace c key now interf).1 = none ∧
    mapGet (MemoryCacheAdapter.GetRace c key now interf).2 key = none := by
  simp [MemoryCacheAdapter.GetRace, hfound, hexp, mapGet_mapDel_self]

/-- C5 (witness for the amended theorem). -/
theorem get_expired_deletes_unconditionally_app :
    mapGet [(['k'], (⟨['o'], some 5⟩ : MemEntry))] ['k'] = some ⟨['o'], some 5⟩ ∧
    expiredAt ⟨['o'], some 5⟩ 10 = true ∧
    mapGet (MemoryCacheAdapter.GetRace
        [(['k'], ⟨['o'], some 5⟩)] ['k'] 10
        (fun c => mapSet c ['k'] ⟨['n'], some 100⟩)).2 ['k'] = none :=
  ⟨by decide, by decide,
    (get_expired_deletes_unconditionally [(['k'], ⟨['o'], some 5⟩)] ['k'] 10
      (fun c => mapSet c ['k'] ⟨['n'], some 100⟩) ⟨['o'], some 5⟩
      (by decide) (by decide)).2⟩

theorem mapGet_filter_of_matched (c : MemCache) (p : Str → Bool) (k : Str)
    (h : p k = true) :
    mapGet (c.filter fun kv => !(p kv.1)) k = none := by
  induction c with
  | nil => rfl
  | cons kv rest ih =>
    obtain ⟨k', e'⟩ := kv
    by_cases hk : k' = k
    · subst hk; simp [List.filter_cons, h, ih]
    · cases hp : p k' <;> simp [List.filter_cons, hp, mapGet, hk, ih]

theorem mapGet_filter_of_unmatched (c : MemCache) (p : Str → Bool) (k : Str)
    (h : p k = false) :
    mapGet (c.filter fun kv => !(p kv.1)) k = mapGet c k := by
  induction c with
  | nil => rfl
  | cons kv rest ih =>
    obtain ⟨k', e'⟩ := kv
    by_cases hk : k' = k
    · subst hk; simp [List.filter_cons, h, mapGet, ih]
    · cases hp : p k' <;> simp [List.filter_cons, hp, mapGet, hk, ih]

theorem filter_length_split (c : MemCache) (p : Str × MemEntry → Bool) :
    (c.filter p).length + (c.filter fun kv => !(p kv)).length = c.length := by
  induction c with
  | nil => rfl
  | cons kv rest ih => cases h : p kv <;> simp [List.filter_cons, h] <;> omega

theorem star_not_suffixOf_append_colon (r : Str) :
    (['*'] : Str).isSuffixOf (r ++ [':']) = false := by
  simp only [List.isSuffixOf, List.reverse_append, List.reverse_cons,
    List.reverse_nil, List.nil_append, List.singleton_append]
  simp [List.isPrefixOf]

/-- C6 (counterexample): the claim quantifies over every pattern, but for the
empty pattern the code returns 0 and deletes nothing, although the literal
prefix obtained from it (the empty string) is a prefix of every stored key, so
the claim demands that the single stored key be removed and 1 returned. -/
theorem deletePattern_empty_pattern_noop :
    MemoryCacheAdapter.trimSuffixStar [] = ([] : Str) ∧
    ([] : Str).isPrefixOf ['a'] = true ∧
    (MemoryCacheAdapter.DeletePattern [(['a'], ⟨['v'], none⟩)] []).1 = 0 ∧
    mapGet (MemoryCacheAdapter.DeletePattern [(['a'], ⟨['v'], none⟩)] []).2 ['a']
      = some ⟨['v'], none⟩ ∧
    ¬ ((MemoryCacheAdapter.DeletePattern [(['a'], ⟨['v'], none⟩)] []).1 = 1) := by
  refine ⟨by decide, by decide, by decide, by decide, by decide⟩

/-- C6 (amended): for every NON-EMPTY pattern, `DeletePattern` strips an
optional trailing `'*'` to obtain a literal prefix, deletes exactly the stored
keys starting with that prefix (every matching key is absent afterwards, every
non-matching key's entry is unchanged), and returns the number removed (the
count plus the number of surviving entries is the original entry count); the
empty pattern deletes nothing and returns 0. `InvalidateCacheOnUpdate(resource)`
performs this with the always-non-empty pattern `resource + ":"`. -/
theorem deletePattern_literal_semantics (c : MemCache) (pat resource : Str)
    (hne : pat ≠ []) :
    (∀ k, (MemoryCacheAdapter.trimSuffixStar pat).isPrefixOf k = true →
        mapGet (MemoryCacheAdapter.DeletePattern c pat).2 k = none) ∧
    (∀ k, (MemoryCacheAdapter.trimSuffixStar pat).isPrefixOf k = false →
        mapGet (MemoryCacheAdapter.DeletePattern c pat).2 k = mapGet c k) ∧
    (MemoryCacheAdapter.DeletePattern c pat).1
        + ((MemoryCacheAdapter.DeletePattern c pat).2.length : Int) = c.length ∧
    (∀ k, ((resource ++ [':']).isPrefixOf k) = true →
        mapGet (InvalidateCacheOnUpdate c resource).2 k = none) ∧
    (∀ k, ((resource ++ [':']).isPrefixOf k) = false →
        mapGet (InvalidateCacheOnUpdate c resource).2 k = mapGet c k) ∧
    (InvalidateCacheOnUpdate c resource).1
        + ((InvalidateCacheOnUpdate c resource).2.length : Int) = c.length := by
  have htrim : MemoryCacheAdapter.trimSuffixStar (resource ++ [':'])
      = resource ++ [':'] := by
    simp [MemoryCacheAdapter.trimSuffixStar, star_not_suffixOf_append_colon]
  have hres : (resource ++ [':'] : Str) ≠ [] := by simp
  have main : ∀ q : Str, q ≠ [] →
      (∀ k, (MemoryCacheAdapter.trimSuffixStar q).isPrefixOf k = true →
          mapGet (MemoryCacheAdapter.DeletePattern c q).2 k = none) ∧
      (∀ k, (MemoryCacheAdapter.trimSuffixStar q).isPrefixOf k = false →
          mapGet (MemoryCacheAdapter.DeletePattern c q).2 k = mapGet c k) ∧
      (MemoryCacheAdapter.DeletePattern c q).1
          + ((MemoryCacheAdapter.DeletePattern c q).2.length : Int) = c.length := by
    intro q hq
    refine ⟨?_, ?_, ?_⟩
    · intro k hk
      simp only [MemoryCacheAdapter.DeletePattern, if_neg hq]
      exact mapGet_filter_of_matched c
        (fun s => (MemoryCacheAdapter.trimSuffixStar q).isPrefixOf s) k hk
    · intro k hk
      simp only [MemoryCacheAdapter.DeletePattern, if_neg hq]
      exact mapGet_filter_of_unmatched c
        (fun s => (MemoryCacheAdapter.trimSuffixStar q).isPrefixOf s) k hk
    · simp only [MemoryCacheAdapter.DeletePattern, if_neg hq]
      have := filter_length_split c
        (fun kv => (MemoryCacheAdapter.trimSuffixStar q).isPrefixOf kv.1)
      push_cast [← this]
      ring
  obtain ⟨h1, h2, h3⟩ := main pat hne
  obtain ⟨h4, h5, h6⟩ := main (resource ++ [':']) hres
  rw [htrim] at h4 h5
  exact ⟨h1, h2, h3,
    fun k hk => h4 k hk, fun k hk => h5 k hk, h6⟩

/-- C6 (witness for the amended theorem). -/
theorem deletePattern_literal_semantics_app :
    (['u', ':', '*'] : Str) ≠ [] ∧
    mapGet (MemoryCacheAdapter.DeletePattern
        [(['u', ':', '1'], ⟨['v'], none⟩), (['w'], ⟨['x'], none⟩)]
        ['u', ':', '*']).2 ['u', ':', '1'] = none :=
  ⟨by decide,
    (deletePattern_literal_semantics
        [(['u', ':', '1'], ⟨['v'], none⟩), (['w'], ⟨['x'], none⟩)]
        ['u', ':', '*'] ['u'] (by decide)).1 ['u', ':', '1'] (by decide)⟩

theorem wrap64_zero_add_one : MemoryCacheAdapter.wrap64 1 = 1 := by decide

theorem wrap64_zero_add_neg_one : MemoryCacheAdapter.wrap64 (-1) = -1 := by
  decide

/-- C7: `Incr`/`Decr` on the in-process backend. With an existing unexpired
entry, the mutated counter entry keeps the original entry's expiry, and a
payload the integer decoder rejects is treated as 0 (so `Incr` returns 1 and
`Decr` returns -1 on it). With the key absent, or holding only an expired
entry, the counter starts from 0, the call returns exactly the delta, and the
new entry is stored with no expiry. -/
theorem incr_decr_ttl_and_delta (encInt : Int → Str) (decInt : Str → Option Int)
    (c : MemCache) (key : Str) (now : Int) :
    (∀ e, mapGet c key = some e → expiredAt e now = false →
      (mapGet (MemoryCacheAdapter.Incr encInt decInt c key now).2 key).map
          MemEntry.expireAt = some e.expireAt ∧
      (mapGet (MemoryCacheAdapter.Decr encInt decInt c key now).2 key).map
          MemEntry.expireAt = some e.expireAt ∧
      (decInt e.data = none →
        (MemoryCacheAdapter.Incr encInt decInt c key now).1 = 1 ∧
        (MemoryCacheAdapter.Decr encInt decInt c key now).1 = -1)) ∧
    (mapGet c key = none →
      (MemoryCacheAdapter.Incr encInt decInt c key now).1 = 1 ∧
      (MemoryCacheAdapter.Decr encInt decInt c key now).1 = -1 ∧
      (mapGet (MemoryCacheAdapter.Incr encInt decInt c key now).2 key).map
          MemEntry.expireAt = some none ∧
      (mapGet (MemoryCacheAdapter.Decr encInt decInt c key now).2 key).map
          MemEntry.expireAt = some none) ∧
    (∀ e, mapGet c key = some e → expiredAt e now = true →
      (MemoryCacheAdapter.Incr encInt decInt c key now).1 = 1 ∧
      (MemoryCacheAdapter.Decr encInt decInt c key now).1 = -1 ∧
      (mapGet (MemoryCacheAdapter.Incr encInt decInt c key now).2 key).map
          MemEntry.expireAt = some none ∧
      (mapGet (MemoryCacheAdapter.Decr encInt decInt c key now).2 key).map
          MemEntry.expireAt = some none) := by
  refine ⟨?_, ?_, ?_⟩
  · intro e hfound hexp
    refine ⟨?_, ?_, ?_⟩
    · simp [MemoryCacheAdapter.Incr, MemoryCacheAdapter.addDelta, hfound, hexp,
        mapGet_mapSet_self]
    · simp [MemoryCacheAdapter.Decr, MemoryCacheAdapter.addDelta, hfound, hexp,
        mapGet_mapSet_self]
    · intro hdec
      constructor
      · simp [MemoryCacheAdapter.Incr, MemoryCacheAdapter.addDelta, hfound,
          hexp, hdec, wrap64_zero_add_one]
      · simp [MemoryCacheAdapter.Decr, MemoryCacheAdapter.addDelta, hfound,
          hexp, hdec, wrap64_zero_add_neg_one]
  · intro hnone
    refine ⟨?_, ?_, ?_, ?_⟩ <;>
      simp [MemoryCacheAdapter.Incr, MemoryCacheAdapter.Decr,
        MemoryCacheAdapter.addDelta, hnone, mapGet_mapSet_self,
        wrap64_zero_add_one, wrap64_zero_add_neg_one]
  · intro e hfound hexp
    refine ⟨?_, ?_, ?_, ?_⟩ <;>
      simp [MemoryCacheAdapter.Incr, MemoryCacheAdapter.Decr,
        MemoryCacheAdapter.addDelta, hfound, hexp, mapGet_mapSet_self,
        wrap64_zero_add_one, wrap64_zero_add_neg_one]

/-- C7 (witness): a fresh counter: `Incr` on an absent key returns 1 and the
created entry has no expiry. -/
theorem incr_decr_ttl_and_delta_app :
    mapGet ([] : MemCache) ['k'] = none ∧
    (MemoryCacheAdapter.Incr (fun _ => ['0']) (fun _ => none) [] ['k'] 0).1 = 1 :=
  ⟨by decide,
    ((incr_decr_ttl_and_delta (fun _ => ['0']) (fun _ => none) [] ['k'] 0).2.1
      (by decide)).1⟩

/-- `DefaultPageSize` (pagination.go). -/
def DefaultPageSize : Int := 20

/-- `DefaultPage` (pagination.go). -/
def DefaultPage : Int := 1

/-- `MaxPageSize` (pagination.go). -/
def MaxPageSize : Int := 200

/-- `PaginationParams` (pagination.go). -/
structure PaginationParams where
  page : Int
  pageSize : Int
  useCache : Bool
deriving DecidableEq, Repr

/-- `NormalizePaginationParams` (pagination.go); the Go function mutates and
returns its argument, embedded here as a pure function on `Option` (a `nil`
argument yields the defaults with caching enabled). -/
def NormalizePaginationParams (p : Option PaginationParams) : PaginationParams :=
  match p with
  | none => ⟨DefaultPage, DefaultPageSize, true⟩
  | some q =>
    let page := if q.page ≤ 0 then DefaultPage else q.page
    let size := if q.pageSize ≤ 0 then DefaultPageSize else q.pageSize
    let size := if size > MaxPageSize then MaxPageSize else size
    ⟨page, size, q.useCache⟩

/-- C8: `NormalizePaginationParams` is idempotent, its result always satisfies
`page ≥ 1` and `1 ≤ page_size ≤ MaxPageSize`, and any non-positive or missing
`page`/`page_size` is coerced to the defaults. -/
theorem normalize_idempotent_bounds (p : Option PaginationParams) :
    NormalizePaginationParams (some (NormalizePaginationParams p))
        = NormalizePaginationParams p ∧
    1 ≤ (NormalizePaginationParams p).page ∧
    1 ≤ (NormalizePaginationParams p).pageSize ∧
    (NormalizePaginationParams p).pageSize ≤ MaxPageSize ∧
    (∀ q, p = some q → q.page ≤ 0 →
      (NormalizePaginationParams p).page = DefaultPage) ∧
    (∀ q, p = some q → q.pageSize ≤ 0 →
      (NormalizePaginationParams p).pageSize = DefaultPageSize) ∧
    (p = none → NormalizePaginationParams p = ⟨DefaultPage, DefaultPageSize, true⟩) := by
  cases p with
  | none =>
    refine ⟨?_, ?_, ?_, ?_, ?_, ?_, ?_⟩ <;>
      simp [NormalizePaginationParams, DefaultPage, DefaultPageSize, MaxPageSize]
  | some q =>
    obtain ⟨pg, ps, uc⟩ := q
    refine ⟨?_, ?_, ?_, ?_, ?_, ?_, ?_⟩
    · simp only [NormalizePaginationParams, DefaultPage, DefaultPageSize,
        MaxPageSize, PaginationParams.mk.injEq]
      split_ifs <;> first | simp_all | omega
    · simp only [NormalizePaginationParams, DefaultPage, DefaultPageSize,
        MaxPageSize]
      split_ifs <;> omega
    · simp only [NormalizePaginationParams, DefaultPage, DefaultPageSize,
        MaxPageSize]
      split_ifs <;> omega
    · simp only [NormalizePaginationParams, DefaultPage, DefaultPageSize,
        MaxPageSize]
      split_ifs <;> omega
    · intro q' hq' hle
      obtain rfl : q' = ⟨pg, ps, uc⟩ := by simpa using hq'.symm
      simp only [NormalizePaginationParams, DefaultPage, DefaultPageSize,
        MaxPageSize] at hle ⊢
      split_ifs <;> first | simp_all | omega
    · intro q' hq' hle
      obtain rfl : q' = ⟨pg, ps, uc⟩ := by simpa using hq'.symm
      simp only [NormalizePaginationParams, DefaultPage, DefaultPageSize,
        MaxPageSize] at hle ⊢
      split_ifs <;> first | simp_all | omega
    · intro h
      exact absurd h (by simp)

/-- C8 (witness): normalizing `{page: 0, page_size: 1000}` is idempotent and
clamped. -/
theorem normalize_idempotent_bounds_app :
    NormalizePaginationParams
        (some (NormalizePaginationParams (some ⟨0, 1000, false⟩)))
      = NormalizePaginationParams (some ⟨0, 1000, false⟩) ∧
    NormalizePaginationParams (some ⟨0, 1000, false⟩) = ⟨1, 200, false⟩ :=
  ⟨(normalize_idempotent_bounds (some ⟨0, 1000, false⟩)).1, by decide⟩

/-- `PaginationResponse` (pagination.go). -/
structure PaginationResponse (T : Type) where
  data : List T
  total : Int
  page : Int
  pageSize : Int
  totalPages : Int
  fromCache : Bool
  cacheKey : String
  dataHash : String

/-- `GenerateDataHash` (pagination.go): `hex(sha256(json.Marshal(data)))`.
`jsonEnc` is `json.Marshal` at the data's slice type and `sha256hex` the
composite `hex.EncodeToString ∘ sha256.Sum256`; both are fixed functions of
their input, passed as parameters. -/
def GenerateDataHash {T : Type} (jsonEnc : List T → Str) (sha256hex : Str → String)
    (data : List T) : String :=
  sha256hex (jsonEnc data)

/-- `BuildPaginationResponse` (pagination.go). `int64` division in Go
truncates toward zero (`Int.tdiv`). -/
def BuildPaginationResponse {T : Type} (jsonEnc : List T → Str)
    (sha256hex : Str → String) (data : List T) (total : Int)
    (params : Option PaginationParams) (cacheKey : String) (fromCache : Bool) :
    PaginationResponse T :=
  let params := NormalizePaginationParams params
  { data := data
    total := total
    page := params.page
    pageSize := params.pageSize
    totalPages := (total + params.pageSize - 1).tdiv params.pageSize
    fromCache := fromCache
    cacheKey := cacheKey
    dataHash := GenerateDataHash jsonEnc sha256hex data }

/-- C9: the content hash of a pagination envelope is a deterministic function
of the data sequence alone: responses built from equal data carry equal
`DataHash` fields regardless of total, pagination parameters, cache key, or
cache provenance, and that hash is exactly `GenerateDataHash` of the data. -/
theorem dataHash_depends_only_on_data {T : Type} (jsonEnc : List T → Str)
    (sha256hex : Str → String) (data : List T) (total₁ total₂ : Int)
    (params₁ params₂ : Option PaginationParams) (ck₁ ck₂ : String)
    (fc₁ fc₂ : Bool) :
    (BuildPaginationResponse jsonEnc sha256hex data total₁ params₁ ck₁ fc₁).dataHash
      = (BuildPaginationResponse jsonEnc sha256hex data total₂ params₂ ck₂ fc₂).dataHash ∧
    (BuildPaginationResponse jsonEnc sha256hex data total₁ params₁ ck₁ fc₁).dataHash
      = GenerateDataHash jsonEnc sha256hex data :=
  ⟨rfl, rfl⟩

/-- Go map read `filters[k]` for the filter map `map[string]interface{}`. -/
def lookupKey {V : Type} : List (String × V) → String → Option V
  | [], _ => none
  | (k', v) :: rest, k => if k' = k then some v else lookupKey rest k

/-- The `val, _ := json.Marshal(filters[k])` step of `GenerateCacheKey`:
`encV` is `json.Marshal` at the filter-value type (its error is discarded by
the source); a missing key would read as a nil interface, marshaled "null". -/
def jsonValue {V : Type} (encV : V → String) (filters : List (String × V))
    (k : String) : String :=
  match lookupKey filters k with
  | some v => encV v
  | none => "null"

/-- `GenerateCacheKey` (pagination.go): normalize the params, then join
`resource`, the filter names in lexicographically sorted order each followed
by its serialized value, and the normalized page and page size, with ":".
The filter map is embedded as an association list whose key-value pairs are
the map's bindings (iteration order arbitrary, keys unique). -/
def GenerateCacheKey {V : Type} (encV : V → String) (resource : String)
    (filters : List (String × V)) (params : Option PaginationParams) : String :=
  let params := NormalizePaginationParams params
  let parts : List String := [resource]
  let parts :=
    if filters.length > 0 then
      let keys := filters.map Prod.fst
      let sorted := keys.insertionSort (· ≤ ·)
      parts ++ sorted.flatMap (fun k => [k, jsonValue encV filters k])
    else parts
  let parts := parts ++ ["page", toString params.page, "size",
    toString params.pageSize]
  String.intercalate ":" parts

theorem lookupKey_perm {V : Type} {f₁ f₂ : List (String × V)} (hp : f₁.Perm f₂)
    (hnd : (f₁.map Prod.fst).Nodup) (k : String) :
    lookupKey f₁ k = lookupKey f₂ k := by
  induction hp with
  | nil => rfl
  | cons x h ih =>
    simp only [List.map_cons, List.nodup_cons] at hnd
    obtain ⟨x₁, x₂⟩ := x
    by_cases hx : x₁ = k <;> simp [lookupKey, hx, ih hnd.2]
  | swap x y l =>
    obtain ⟨x₁, x₂⟩ := x
    obtain ⟨y₁, y₂⟩ := y
    simp only [List.map_cons, List.nodup_cons, List.mem_cons] at hnd
    have hne : y₁ ≠ x₁ := fun hcontra => hnd.1 (Or.inl hcontra)
    by_cases hy : y₁ = k <;> by_cases hx : x₁ = k <;>
      simp [lookupKey, hy, hx]
    exact absurd (hy.trans hx.symm) hne
  | trans h₁ h₂ ih₁ ih₂ =>
    have hnd₂ := ((h₁.map Prod.fst).nodup_iff).mp hnd
    exact (ih₁ hnd).trans (ih₂ hnd₂)

/-- C4: `GenerateCacheKey` is a deterministic, order-independent function of
the resource, the filter set and the normalized pagination: two filter maps
equal as key-value sets (association lists that are permutations of each
other, keys unique) yield byte-identical keys, because the filter names are
sorted lexicographically before being appended. -/
theorem generateCacheKey_order_independent {V : Type} (encV : V → String)
    (resource : String) (params : Option PaginationParams)
    (f₁ f₂ : List (String × V)) (hp : f₁.Perm f₂)
    (hnd : (f₁.map Prod.fst).Nodup) :
    GenerateCacheKey encV resource f₁ params
      = GenerateCacheKey encV resource f₂ params := by
  have hlen : f₁.length = f₂.length := hp.length_eq
  have hkeys : (f₁.map Prod.fst).Perm (f₂.map Prod.fst) := hp.map Prod.fst
  have hsorted : (f₁.map Prod.fst).insertionSort (· ≤ ·)
      = (f₂.map Prod.fst).insertionSort (· ≤ ·) :=
    List.eq_of_perm_of_sorted
      ((List.perm_insertionSort _ _).trans
        (hkeys.trans (List.perm_insertionSort _ _).symm))
      (List.sorted_insertionSort _ _) (List.sorted_insertionSort _ _)
  have hval : (fun k => [k, jsonValue encV f₁ k])
      = (fun k => [k, jsonValue encV f₂ k]) := by
    funext k
    simp [jsonValue, lookupKey_perm hp hnd k]
  simp only [GenerateCacheKey, hlen, hsorted, hval]

/-- C4 (witness): `{b: 2, a: 1}` and `{a: 1, b: 2}` produce the same key. -/
theorem generateCacheKey_order_independent_app :
    ([("b", "2"), ("a", "1")] : List (String × String)).Perm
        [("a", "1"), ("b", "2")] ∧
    (([("b", "2"), ("a", "1")] : List (String × String)).map Prod.fst).Nodup ∧
    GenerateCacheKey id "users" [("b", "2"), ("a", "1")] none
      = GenerateCacheKey id "users" [("a", "1"), ("b", "2")] none :=
  ⟨by decide, by decide,
    generateCacheKey_order_independent id "users" none
      [("b", "2"), ("a", "1")] [("a", "1"), ("b", "2")]
      (by decide) (by decide)⟩

/-- `CacheTicket` (ticket module): user-scoped cache token. -/
structure CacheTicket where
  userID : Str
  token : Str
  issuedAt : Int
  expiresAt : Int

/-- `CacheTicket.Validate`: an empty token is invalid (`ErrInvalidTicket`),
a ticket whose expiry is strictly in the past is expired (`ErrTicketExpired`);
the nil-receiver case is represented by the `Option` at the call site. -/
def CacheTicket.Validate (t : CacheTicket) (now : Int) : Option GoErr :=
  if t.token = [] then some .errInvalidTicket
  else if now > t.expiresAt then some .errTicketExpired
  else none

/-- `QueryOptions` (manager.go). -/
structure QueryOptions where
  ttl : Int
  useCache : Bool
  ticket : Option CacheTicket

/-- The monitor's hit/miss counters (monitor.go). The rolling latency window
and timestamps depend on wall-clock readings and are not modeled; the claims
under study concern only which observation is recorded. -/
structure Monitor where
  hitCount : Int
  missCount : Int
deriving DecidableEq, Repr

/-- `Monitor.RecordHit` (monitor.go), counter part. -/
def Monitor.RecordHit (m : Monitor) : Monitor :=
  { m with hitCount := m.hitCount + 1 }

/-- `Monitor.RecordMiss` (monitor.go), counter part. -/
def Monitor.RecordMiss (m : Monitor) : Monitor :=
  { m with missCount := m.missCount + 1 }

/-- A cache backend as `Query` sees it (the `Adapter` interface): `get`
returns payload-or-absent plus an error and the post-call backend state (the
in-process backend deletes expired entries on read); `set` may fail and
mutates state. -/
structure AdapterModel (σ : Type) where
  get : σ → Str → Option Str × Option GoErr × σ
  set : σ → Str → Str → Int → Option GoErr × σ

/-- The outcome of one `Query` call: the returned value-or-error, the final
backend state, the final monitor, and how often the producer ran. -/
structure QueryOut (σ T : Type) where
  result : Except GoErr T
  state : σ
  monitor : Monitor
  producerCalls : Nat

/-- Steps 4-6 of `Query` (manager.go): invoke the producer; on failure return
the failure unchanged without touching the backend; on success, when caching
is enabled, write the encoded result with the option's ttl (0 inherits the
manager default) and DISCARD any write error (`_ = manager.adapter.Set(...)`). -/
def queryProduce {σ T : Type} (A : AdapterModel σ) (defaultTTL : Int)
    (enc : T → Str) (opts : QueryOptions) (key : Str)
    (producer : Except GoErr T) (s : σ) (mon : Monitor) : QueryOut σ T :=
  match producer with
  | .error e => ⟨.error e, s, mon, 1⟩
  | .ok v =>
    if opts.useCache then
      let ttl := if opts.ttl = 0 then defaultTTL else opts.ttl
      ⟨.ok v, (A.set s key (enc v) ttl).2, mon, 1⟩
    else ⟨.ok v, s, mon, 1⟩

/-- Step 3 of `Query` (manager.go): when caching is enabled, attempt the
lookup; if it returned no error and a non-nil payload, record a hit and, if
the payload deserializes, return it; otherwise record a miss; in all
remaining cases fall through to the producer. -/
def queryLookup {σ T : Type} (A : AdapterModel σ) (defaultTTL : Int)
    (enc : T → Str) (dec : Str → Option T) (opts : QueryOptions) (key : Str)
    (producer : Except GoErr T) (s : σ) (mon : Monitor) : QueryOut σ T :=
  if opts.useCache then
    match A.get s key with
    | (dataOpt, errOpt, s₁) =>
      match errOpt, dataOpt with
      | none, some data =>
        let mon₁ := mon.RecordHit
        match dec data with
        | some v => ⟨.ok v, s₁, mon₁, 0⟩
        | none => queryProduce A defaultTTL enc opts key producer s₁ mon₁
      | _, _ =>
        let mon₁ := mon.RecordMiss
        queryProduce A defaultTTL enc opts key producer s₁ mon₁
  else queryProduce A defaultTTL enc opts key producer s mon

/-- `Query` (manager.go), for a non-nil manager and adapter: validate the
ticket when one was supplied (either failure short-circuits), then the cache
lookup and producer phases. `enc`/`dec` are `json.Marshal`/`json.Unmarshal`
at the result type `T`. -/
def Query {σ T : Type} (A : AdapterModel σ) (defaultTTL : Int) (enc : T → Str)
    (dec : Str → Option T) (opts : QueryOptions) (key : Str)
    (producer : Except GoErr T) (s : σ) (mon : Monitor) (now : Int) :
    QueryOut σ T :=
  match opts.ticket with
  | some t =>
    match t.Validate now with
    | some e => ⟨.error e, s, mon, 0⟩
    | none => queryLookup A defaultTTL enc dec opts key producer s mon
  | none => queryLookup A defaultTTL enc dec opts key producer s mon

/-- The in-process backend as an `AdapterModel`, at a fixed call time (its
operations never return errors). -/
def memAdapter (defaultTTL now : Int) : AdapterModel MemCache :=
  { get := fun s k =>
      ((MemoryCacheAdapter.Get s k now).1, none, (MemoryCacheAdapter.Get s k now).2)
    set := fun s k payload ttl =>
      (none, MemoryCacheAdapter.Set defaultTTL s k payload ttl now) }

theorem queryProduce_error_spec {σ T : Type} (A : AdapterModel σ) (d : Int)
    (enc : T → Str) (opts : QueryOptions) (key : Str) (e : GoErr) (s : σ)
    (mon : Monitor) :
    queryProduce A d enc opts key (.error e) s mon
      = ⟨.error e, s, mon, 1⟩ := rfl

theorem queryProduce_ok_spec {σ T : Type} (A : AdapterModel σ) (d : Int)
    (enc : T → Str) (opts : QueryOptions) (key : Str) (v : T) (s : σ)
    (mon : Monitor) :
    (queryProduce A d enc opts key (.ok v) s mon).result = .ok v ∧
    (queryProduce A d enc opts key (.ok v) s mon).monitor = mon ∧
    (queryProduce A d enc opts key (.ok v) s mon).producerCalls = 1 := by
  cases h : opts.useCache <;> simp [queryProduce, h]

theorem query_ticket_passes {σ T : Type} (A : AdapterModel σ)
    (defaultTTL : Int) (enc : T → Str) (dec : Str → Option T)
    (opts : QueryOptions) (key : Str) (producer : Except GoErr T) (s : σ)
    (mon : Monitor) (now : Int)
    (hticket : ∀ t, opts.ticket = some t → t.Validate now = none) :
    Query A defaultTTL enc dec opts key producer s mon now
      = queryLookup A defaultTTL enc dec opts key producer s mon := by
  cases hop : opts.ticket with
  | none => simp [Query, hop]
  | some t => simp [Query, hop, hticket t hop]

/-- C1: for every `Query` call that reaches the producer — the ticket gate
passed, and either caching is disabled or the lookup did not yield a
deserializable payload (backend error, absent key, or undecodable payload) —
the producer's outcome is the sole determinant of the result: a producer
failure is returned unchanged and the backend is left exactly as the lookup
left it (no write happens), and a producer success is returned even though
the backend may fail (or do anything) on the subsequent `Set`, whose error is
discarded. -/
theorem query_producer_sole_outcome {σ T : Type} (A : AdapterModel σ)
    (defaultTTL : Int) (enc : T → Str) (dec : Str → Option T)
    (opts : QueryOptions) (key : Str) (producer : Except GoErr T) (s : σ)
    (mon : Monitor) (now : Int)
    (hticket : ∀ t, opts.ticket = some t → t.Validate now = none)
    (hreach : opts.useCache = false
      ∨ (A.get s key).2.1 ≠ none ∨ (A.get s key).1 = none
      ∨ (∃ d, (A.get s key).1 = some d ∧ (A.get s key).2.1 = none
          ∧ dec d = none)) :
    (∀ e, producer = .error e →
      (Query A defaultTTL enc dec opts key producer s mon now).result
          = .error e ∧
      (Query A defaultTTL enc dec opts key producer s mon now).state
          = (if opts.useCache then (A.get s key).2.2 else s)) ∧
    (∀ v, producer = .ok v →
      (Query A defaultTTL enc dec opts key producer s mon now).result
          = .ok v) := by
  rw [query_ticket_passes A defaultTTL enc dec opts key producer s mon now hticket]
  cases huse : opts.useCache with
  | false =>
    constructor
    · intro e he
      subst he
      simp [queryLookup, huse, queryProduce_error_spec]
    · intro v hv
      subst hv
      simp only [queryLookup, huse, Bool.false_eq_true, if_neg]
      exact (queryProduce_ok_spec A defaultTTL enc opts key v s mon).1
  | true =>
    rcases hg : A.get s key with ⟨dataOpt, errOpt, s₁⟩
    have hstate : (if opts.useCache = true then (A.get s key).2.2 else s) = s₁ := by
      simp [huse, hg]
    cases errOpt with
    | some e' =>
      constructor
      · intro e he
        subst he
        simp [queryLookup, huse, hg, queryProduce_error_spec, hstate]
      · intro v hv
        subst hv
        simp only [queryLookup, huse, if_pos, hg]
        exact (queryProduce_ok_spec A defaultTTL enc opts key v s₁
          (mon.RecordMiss)).1
    | none =>
      cases dataOpt with
      | none =>
        constructor
        · intro e he
          subst he
          simp [queryLookup, huse, hg, queryProduce_error_spec, hstate]
        · intro v hv
          subst hv
          simp only [queryLookup, huse, if_pos, hg]
          exact (queryProduce_ok_spec A defaultTTL enc opts key v s₁
            (mon.RecordMiss)).1
      | some d =>
        have hdec : dec d = none := by
          rcases hreach with h1 | h2 | h3 | ⟨d', hd', he', hdec'⟩
          · rw [huse] at h1; cases h1
          · rw [hg] at h2; simp at h2
          · rw [hg] at h3; cases h3
          · rw [hg] at hd'
            simp at hd'
            rw [hd']
            exact hdec'
        constructor
        · intro e he
          subst he
          simp [queryLookup, huse, hg, hdec, queryProduce_error_spec, hstate]
        · intro v hv
          subst hv
          simp only [queryLookup, huse, if_pos, hg, hdec]
          exact (queryProduce_ok_spec A defaultTTL enc opts key v s₁
            (mon.RecordHit)).1

/-- C1 (witness): on the empty in-process backend (a miss), a failing
producer's error is returned unchanged. -/
theorem query_producer_sole_outcome_app :
    (Query (memAdapter 5 0) 5 (fun _ : Nat => []) (fun _ => none)
        ⟨0, true, none⟩ ['k'] (.error (.producerErr ['x'])) [] ⟨0, 0⟩ 0).result
      = .error (.producerErr ['x']) :=
  ((query_producer_sole_outcome (memAdapter 5 0) 5 (fun _ : Nat => [])
      (fun _ => none) ⟨0, true, none⟩ ['k'] (.error (.producerErr ['x'])) []
      ⟨0, 0⟩ 0 (fun _ h => nomatch h)
      (Or.inr (Or.inr (Or.inl (by decide))))).1
    (.producerErr ['x']) rfl).1

/-- C2 (counterexample): when the lookup returns a payload that FAILS to
deserialize, `Query` has already recorded a HIT (the hit is recorded before
deserialization is attempted), then invokes the producer without recording
any miss — the claim requires exactly one miss observation in this case.
Concretely: a backend returning the undecodable payload "x", a decoder that
rejects everything, a succeeding producer; after `Query`, hitCount = 1,
missCount = 0 and the producer ran once. -/
theorem query_decode_failure_records_hit_not_miss :
    (Query (⟨fun s _ => (some ['x'], none, s), fun s _ _ _ => (none, s)⟩ :
          AdapterModel Unit) 5 (fun _ : Nat => []) (fun _ => none)
        ⟨0, true, none⟩ ['k'] (.ok 42) () ⟨0, 0⟩ 0).producerCalls = 1 ∧
    (Query (⟨fun s _ => (some ['x'], none, s), fun s _ _ _ => (none, s)⟩ :
          AdapterModel Unit) 5 (fun _ : Nat => []) (fun _ => none)
        ⟨0, true, none⟩ ['k'] (.ok 42) () ⟨0, 0⟩ 0).monitor.hitCount = 1 ∧
    (Query (⟨fun s _ => (some ['x'], none, s), fun s _ _ _ => (none, s)⟩ :
          AdapterModel Unit) 5 (fun _ : Nat => []) (fun _ => none)
        ⟨0, true, none⟩ ['k'] (.ok 42) () ⟨0, 0⟩ 0).monitor.missCount = 0 ∧
    ¬ ((Query (⟨fun s _ => (some ['x'], none, s), fun s _ _ _ => (none, s)⟩ :
          AdapterModel Unit) 5 (fun _ : Nat => []) (fun _ => none)
        ⟨0, true, none⟩ ['k'] (.ok 42) () ⟨0, 0⟩ 0).monitor.missCount = 1) := by
  refine ⟨rfl, rfl, rfl, by decide⟩

/-- C2 (amended): with caching enabled and the ticket gate passed, one
`Query` call records exactly one observation on the monitor, as follows.
When the lookup returns a payload without error and it deserializes, exactly
one hit is recorded, the producer never runs, and the cached value is
returned. When the lookup returns a payload without error but it fails to
deserialize, exactly one HIT (not a miss) is recorded and the producer is
then invoked. When the key is absent or the lookup errors, exactly one miss
is recorded and the producer is then invoked. -/
theorem query_hit_miss_accounting {σ T : Type} (A : AdapterModel σ)
    (defaultTTL : Int) (enc : T → Str) (dec : Str → Option T)
    (opts : QueryOptions) (key : Str) (producer : Except GoErr T) (s : σ)
    (mon : Monitor) (now : Int)
    (hticket : ∀ t, opts.ticket = some t → t.Validate now = none)
    (huse : opts.useCache = true) :
    (∀ d v, (A.get s key).1 = some d → (A.get s key).2.1 = none →
      dec d = some v →
      (Query A defaultTTL enc dec opts key producer s mon now).result = .ok v ∧
      (Query A defaultTTL enc dec opts key producer s mon now).monitor
          = mon.RecordHit ∧
      (Query A defaultTTL enc dec opts key producer s mon now).producerCalls
          = 0) ∧
    (∀ d, (A.get s key).1 = some d → (A.get s key).2.1 = none →
      dec d = none →
      (Query A defaultTTL enc dec opts key producer s mon now).monitor
          = mon.RecordHit ∧
      (Query A defaultTTL enc dec opts key producer s mon now).producerCalls
          = 1) ∧
    (((A.get s key).1 = none ∨ (A.get s key).2.1 ≠ none) →
      (Query A defaultTTL enc dec opts key producer s mon now).monitor
          = mon.RecordMiss ∧
      (Query A defaultTTL enc dec opts key producer s mon now).producerCalls
          = 1) := by
  rw [query_ticket_passes A defaultTTL enc dec opts key producer s mon now hticket]
  rcases hg : A.get s key with ⟨dataOpt, errOpt, s₁⟩
  have hmon : ∀ s' m', (queryProduce A defaultTTL enc opts key producer s' m').monitor = m' ∧
      (queryProduce A defaultTTL enc opts key producer s' m').producerCalls = 1 := by
    intro s' m'
    cases producer with
    | error e => simp [queryProduce_error_spec]
    | ok v =>
      exact ⟨(queryProduce_ok_spec A defaultTTL enc opts key v s' m').2.1,
        (queryProduce_ok_spec A defaultTTL enc opts key v s' m').2.2⟩
  refine ⟨?_, ?_, ?_⟩
  · intro d v hd he hdec
    obtain rfl : dataOpt = some d := hd
    obtain rfl : errOpt = none := he
    simp [queryLookup, huse, hg, hdec]
  · intro d hd he hdec
    obtain rfl : dataOpt = some d := hd
    obtain rfl : errOpt = none := he
    simp [queryLookup, huse, hg, hdec, hmon]
  · intro habs
    rcases habs with h1 | h2
    · obtain rfl : dataOpt = none := h1
      cases errOpt with
      | none => simp [queryLookup, huse, hg, hmon]
      | some e' => simp [queryLookup, huse, hg, hmon]
    · have h2' : errOpt ≠ none := h2
      cases errOpt with
      | none => exact absurd rfl h2'
      | some e' =>
        cases dataOpt <;> simp [queryLookup, huse, hg, hmon]

/-- C2 (witness): a deserializable hit: the cached value 7 is returned, one
hit is recorded, and the producer never runs. -/
theorem query_hit_miss_accounting_app :
    (Query (⟨fun s _ => (some ['1'], none, s), fun s _ _ _ => (none, s)⟩ :
          AdapterModel Unit) 5 (fun _ : Nat => []) (fun _ => some 7)
        ⟨0, true, none⟩ ['k'] (.ok 9) () ⟨0, 0⟩ 0).result = .ok 7 ∧
    (Query (⟨fun s _ => (some ['1'], none, s), fun s _ _ _ => (none, s)⟩ :
          AdapterModel Unit) 5 (fun _ : Nat => []) (fun _ => some 7)
        ⟨0, true, none⟩ ['k'] (.ok 9) () ⟨0, 0⟩ 0).producerCalls = 0 :=
  ⟨((query_hit_miss_accounting
      (⟨fun s _ => (some ['1'], none, s), fun s _ _ _ => (none, s)⟩ :
        AdapterModel Unit) 5 (fun _ : Nat => []) (fun _ => some 7)
      ⟨0, true, none⟩ ['k'] (.ok 9) () ⟨0, 0⟩ 0 (fun _ h => nomatch h) rfl).1
      ['1'] 7 rfl rfl rfl).1,
   ((query_hit_miss_accounting
      (⟨fun s _ => (some ['1'], none, s), fun s _ _ _ => (none, s)⟩ :
        AdapterModel Unit) 5 (fun _ : Nat => []) (fun _ => some 7)
      ⟨0, true, none⟩ ['k'] (.ok 9) () ⟨0, 0⟩ 0 (fun _ h => nomatch h) rfl).1
      ['1'] 7 rfl rfl rfl).2.2⟩

end EitCache
